import Mathlib

/-!
Verification development for the `miBotNotificationRegister` repository
(a Telegram registration bot with a SQLite persistence layer).

The development shallowly embeds:
* `database.py` (`Database`): the two-table store (`users`, `students`),
  its CRUD operations, and the JSON side-document (de)serialization helpers;
* `bot.py`: the `continue_register` resume routing, the `validate_cct`
  allow-list validation, and the `get_grados_por_nivel` level-to-grade table.

Machine integers are modelled as `Int`/`Nat` (SQLite integers are unbounded
for the values used here).  Fallible Python code is modelled with
`Option`/`Except` results; totality of a Lean function models the Python
function never raising.
-/

namespace Database

/-- Primitive JSON values appearing in the side documents
(`datos_estudiante` / `datos_autorizado`): strings, (integer) numbers,
booleans and null.  This is the canonical value-type subset named by the
spec for the JSON-in-a-text-column side documents. -/
inductive JVal where
  | str (s : String)
  | int (n : Int)
  | bool (b : Bool)
  | null
deriving DecidableEq, Repr

/-- The opening brace character, written numerically. -/
def lbrace : Char := Char.ofNat 123

/-- The closing brace character, written numerically. -/
def rbrace : Char := Char.ofNat 125

/-- Lower-case hexadecimal digit for `n < 16`, as emitted by Python's
`json.dumps` in `\uXXXX` escapes. -/
def hexDigitChar (n : Nat) : Char :=
  match n with
  | 0 => '0' | 1 => '1' | 2 => '2' | 3 => '3' | 4 => '4'
  | 5 => '5' | 6 => '6' | 7 => '7' | 8 => '8' | 9 => '9'
  | 10 => 'a' | 11 => 'b' | 12 => 'c' | 13 => 'd' | 14 => 'e'
  | _ => 'f'

/-- Decimal digit character for `n < 10`. -/
def digitChar (n : Nat) : Char :=
  match n with
  | 0 => '0' | 1 => '1' | 2 => '2' | 3 => '3' | 4 => '4'
  | 5 => '5' | 6 => '6' | 7 => '7' | 8 => '8' | _ => '9'

/-- Escaping of one character inside a JSON string literal, as done by
`json.dumps(..., ensure_ascii=False)`: `"` and `\` are backslash-escaped,
the five control characters with short forms use them, the remaining
control characters below `0x20` become `\u00XX`, everything else is
emitted verbatim. -/
def escapeChar (c : Char) : List Char :=
  if c = '"' then ['\\', '"']
  else if c = '\\' then ['\\', '\\']
  else if c = '\n' then ['\\', 'n']
  else if c = '\r' then ['\\', 'r']
  else if c = '\t' then ['\\', 't']
  else if c.toNat = 8 then ['\\', 'b']
  else if c.toNat = 12 then ['\\', 'f']
  else if c.toNat < 32 then
    ['\\', 'u', '0', '0', hexDigitChar (c.toNat / 16), hexDigitChar (c.toNat % 16)]
  else [c]

/-- Escape a whole character list. -/
def escList : List Char → List Char
  | [] => []
  | c :: cs => escapeChar c ++ escList cs

/-- A JSON string literal: quote, escaped body, quote. -/
def encStr (s : String) : List Char :=
  '"' :: escList s.data ++ ['"']

/-- Worker for `natDigits`; the fuel strictly bounds the argument, so it
never runs out. -/
def natDigitsAux : Nat → Nat → List Char
  | 0, _ => []
  | fuel + 1, n =>
    if n < 10 then [digitChar n]
    else natDigitsAux fuel (n / 10) ++ [digitChar (n % 10)]

/-- Decimal digits of a natural number, most significant first. -/
def natDigits (n : Nat) : List Char := natDigitsAux (n + 1) n

/-- Decimal rendering of a Python integer: optional minus sign, digits. -/
def encInt (n : Int) : List Char :=
  if n < 0 then '-' :: natDigits n.natAbs else natDigits n.toNat

/-- Rendering of one JSON value. -/
def encVal : JVal → List Char
  | .str s => encStr s
  | .int n => encInt n
  | .bool true => ['t', 'r', 'u', 'e']
  | .bool false => ['f', 'a', 'l', 's', 'e']
  | .null => ['n', 'u', 'l', 'l']

/-- Rendering of the members of a JSON object with the default `json.dumps`
separators `", "` and `": "`. -/
def encMembers : List (String × JVal) → List Char
  | [] => []
  | [(k, v)] => encStr k ++ ':' :: ' ' :: encVal v
  | (k, v) :: rest => encStr k ++ ':' :: ' ' :: encVal v ++ ',' :: ' ' :: encMembers rest

/-- Model of `Database.serialize_json`: `json.dumps(data, ensure_ascii=False)` on a
flat mapping, modelled from the Python standard `json` library's output
format for objects whose values are strings, integers, booleans or null. -/
def serialize_json (m : List (String × JVal)) : String :=
  ⟨lbrace :: (encMembers m ++ [rbrace])⟩

/-- JSON whitespace characters accepted between tokens by `json.loads`. -/
def isWs (c : Char) : Bool :=
  c = ' ' || c = '\t' || c = '\n' || c = '\r'

/-- Skip leading JSON whitespace. -/
def skipWs : List Char → List Char
  | [] => []
  | c :: rest => if isWs c then skipWs rest else c :: rest

/-- Value of one hexadecimal digit character, if it is one. -/
def hexVal (c : Char) : Option Nat :=
  if '0' ≤ c ∧ c ≤ '9' then some (c.toNat - 48)
  else if 'a' ≤ c ∧ c ≤ 'f' then some (c.toNat - 87)
  else if 'A' ≤ c ∧ c ≤ 'F' then some (c.toNat - 55)
  else none

/-- Combined value of a four-hex-digit `\uXXXX` escape. -/
def hexVal4 (h1 h2 h3 h4 : Char) : Option Nat :=
  match hexVal h1, hexVal h2, hexVal h3, hexVal h4 with
  | some a, some b, some c, some d => some (4096 * a + 256 * b + 16 * c + d)
  | _, _, _, _ => none

/-- Decoding of the single-character escapes recognised by `json.loads`. -/
def escDecode (e : Char) : Option Char :=
  if e = '"' then some '"'
  else if e = '\\' then some '\\'
  else if e = '/' then some '/'
  else if e = 'b' then some (Char.ofNat 8)
  else if e = 'f' then some (Char.ofNat 12)
  else if e = 'n' then some '\n'
  else if e = 'r' then some '\r'
  else if e = 't' then some '\t'
  else none

mutual

/-- Parse the body of a JSON string literal (the opening quote already
consumed), returning the decoded characters and the rest of the input.
Strict mode of `json.loads`: raw control characters are rejected. -/
def parseStrBody : List Char → Option (List Char × List Char)
  | [] => none
  | c :: rest =>
    if c = '"' then some ([], rest)
    else if c = '\\' then parseEsc rest
    else if c.toNat < 32 then none
    else (parseStrBody rest).map fun p => (c :: p.1, p.2)

/-- Parse the remainder of a backslash escape inside a string literal. -/
def parseEsc : List Char → Option (List Char × List Char)
  | [] => none
  | 'u' :: h1 :: h2 :: h3 :: h4 :: rest =>
    match hexVal4 h1 h2 h3 h4 with
    | some n => (parseStrBody rest).map fun p => (Char.ofNat n :: p.1, p.2)
    | none => none
  | 'u' :: _ => none
  | e :: rest =>
    match escDecode e with
    | some d => (parseStrBody rest).map fun p => (d :: p.1, p.2)
    | none => none

end

/-- Greedily consume decimal digits. -/
def parseDigits : List Char → List Char × List Char
  | [] => ([], [])
  | c :: rest =>
    if c.isDigit then
      let p := parseDigits rest
      (c :: p.1, p.2)
    else ([], c :: rest)

/-- Numeric value of a digit list, most significant first. -/
def digitsVal (l : List Char) : Nat :=
  l.foldl (fun acc c => 10 * acc + (c.toNat - 48)) 0

/-- Parse one JSON value of the primitive subset: string, integer,
boolean or null. -/
def parseVal (l : List Char) : Option (JVal × List Char) :=
  match l with
  | [] => none
  | c :: rest =>
    if c = '"' then (parseStrBody rest).map fun p => (.str ⟨p.1⟩, p.2)
    else if c = 't' then
      match rest with
      | 'r' :: 'u' :: 'e' :: rest2 => some (.bool true, rest2)
      | _ => none
    else if c = 'f' then
      match rest with
      | 'a' :: 'l' :: 's' :: 'e' :: rest2 => some (.bool false, rest2)
      | _ => none
    else if c = 'n' then
      match rest with
      | 'u' :: 'l' :: 'l' :: rest2 => some (.null, rest2)
      | _ => none
    else if c = '-' then
      match parseDigits rest with
      | ([], _) => none
      | (ds, rest2) => some (.int (-(digitsVal ds : Int)), rest2)
    else if c.isDigit then
      let p := parseDigits (c :: rest)
      some (.int (digitsVal p.1), p.2)
    else none

/-- After the key string and the colon: parse the member's value. -/
def parsePairValue (k : List Char) (rest3 : List Char) :
    Option ((String × JVal) × List Char) :=
  match parseVal (skipWs rest3) with
  | none => none
  | some (v, rest4) => some ((⟨k⟩, v), rest4)

/-- After the key string: expect the `":"` separator. -/
def parsePairColon (k : List Char) (rest2 : List Char) :
    Option ((String × JVal) × List Char) :=
  match skipWs rest2 with
  | ':' :: rest3 => parsePairValue k rest3
  | _ => none

/-- After the opening quote of the key: parse the key then the rest. -/
def parsePairAfterQuote (rest : List Char) : Option ((String × JVal) × List Char) :=
  match parseStrBody rest with
  | none => none
  | some (k, rest2) => parsePairColon k rest2

/-- Parse one `"key": value` member (leading whitespace allowed). -/
def parsePair (l : List Char) : Option ((String × JVal) × List Char) :=
  match skipWs l with
  | [] => none
  | c :: rest => if c = '"' then parsePairAfterQuote rest else none

/-- After one member: a comma continues the list (via `next`, the parser
for the remaining members), a closing brace ends it. -/
def parseMembersSep (next : List Char → Option (List (String × JVal) × List Char))
    (p : String × JVal) (rest : List Char) :
    Option (List (String × JVal) × List Char) :=
  match skipWs rest with
  | [] => none
  | c :: rest2 =>
    if c = ',' then (next rest2).map fun q => (p :: q.1, q.2)
    else if c = rbrace then some ([p], rest2)
    else none

/-- Parse a nonempty comma-separated member list up to and including the
closing brace.  `fuel` bounds the number of members. -/
def parseMembers : Nat → List Char → Option (List (String × JVal) × List Char)
  | 0, _ => none
  | fuel + 1, l =>
    match parsePair l with
    | none => none
    | some (p, rest) => parseMembersSep (parseMembers fuel) p rest

/-- Python dictionary insertion: overwriting an existing key keeps its
position, a new key is appended. -/
def dictInsert (d : List (String × JVal)) (k : String) (v : JVal) : List (String × JVal) :=
  if d.any (fun p => p.1 == k) then
    d.map (fun p => if p.1 == k then (k, v) else p)
  else d ++ [(k, v)]

/-- Fold a member list into a Python dictionary (last occurrence of a
duplicated key wins, first position kept). -/
def buildDict (ms : List (String × JVal)) : List (String × JVal) :=
  ms.foldl (fun d p => dictInsert d p.1 p.2) []

/-- Parse the member list of a nonempty object and build the dictionary;
trailing input must be whitespace only. -/
def loadsMembers (rest : List Char) : Option (List (String × JVal)) :=
  match parseMembers (rest.length + 1) rest with
  | some (m, rest3) => if skipWs rest3 = [] then some (buildDict m) else none
  | none => none

/-- After the opening brace: an immediate closing brace is the empty
object, otherwise a member list followed by the closing brace; trailing
input must be whitespace only. -/
def loadsObj (rest : List Char) : Option (List (String × JVal)) :=
  match skipWs rest with
  | [] => none
  | d :: rest2 =>
    if d = rbrace then
      if skipWs rest2 = [] then some [] else none
    else loadsMembers rest

/-- Model of `json.loads`, modelled from the Python standard `json` library
restricted to the flat-object subset used by the repository's side
documents (string keys; string / integer / boolean / null values).
Returns `none` where `json.loads` raises `json.JSONDecodeError` on this
subset. -/
def json_loads (s : String) : Option (List (String × JVal)) :=
  match skipWs s.data with
  | [] => none
  | c :: rest => if c = lbrace then loadsObj rest else none

/-- Model of `Database.deserialize_json`: `json.loads(data) if data else {}` wrapped
in `try/except json.JSONDecodeError: return {}`.  Totality of this
function models that the Python function never raises; a decode failure
becomes the empty mapping. -/
def deserialize_json (s : String) : List (String × JVal) :=
  if s = "" then []
  else
    match json_loads s with
    | some m => m
    | none => []

/-- A row of the `users` (Guardian) table, as created by `init_db`.
Timestamps are modelled as abstract `Nat` clock values. -/
structure UserRow where
  telegram_id : Int
  apellidos_autorizado : String
  nombre_autorizado : String
  datos_autorizado : String
  created_at : Nat
  updated_at : Nat
deriving DecidableEq, Repr

/-- A row of the `students` table.  `id` is the `AUTOINCREMENT` primary
key; `grado`, `grupo` and `nivel_escolar` are nullable columns. -/
structure StudentRow where
  id : Nat
  telegram_id : Int
  clave_instituto : String
  nombre_estudiante : String
  apellidos_estudiante : String
  grado : Option String
  grupo : Option String
  nivel_escolar : Option String
  datos_estudiante : String
  created_at : Nat
  updated_at : Nat
deriving DecidableEq, Repr

/-- The persistent store: the two tables plus the next `AUTOINCREMENT`
value for `students.id`.  Row order models SQLite scan (insertion)
order. -/
structure DBState where
  users : List UserRow
  students : List StudentRow
  next_id : Nat
deriving DecidableEq, Repr

/-- SQLite errors distinguished by the Python code: `sqlite3.IntegrityError`
(constraint violations) versus any other engine error (e.g.
`sqlite3.OperationalError`), which `add_student` / `add_user` do not
catch. -/
inductive SqlError where
  | integrityError
  | operationalError
deriving DecidableEq, Repr

/-- A Python value passed as the `value` argument of the update methods:
either a string or a dictionary (only `datos_estudiante` /
`datos_autorizado` serialize dictionaries). -/
inductive PyValue where
  | str (s : String)
  | obj (m : List (String × JVal))
deriving DecidableEq, Repr

/-- Python truthiness of an optional string (`if apellidos_autorizado and
nombre_autorizado:`): `None` and the empty string are falsy. -/
def truthyStr : Option String → Bool
  | none => false
  | some s => !(s == "")

/-- The effect of `INSERT OR REPLACE INTO users`: any row with the same
primary key is deleted and the fresh row is inserted. -/
def replaceUser (now : Nat) (telegram_id : Int) (ap nom datos : String)
    (users : List UserRow) : List UserRow :=
  users.filter (fun u => !(u.telegram_id == telegram_id)) ++
    [⟨telegram_id, ap, nom, datos, now, now⟩]

/-- Model of `Database.add_user`: plain `INSERT INTO users`; a primary-key conflict
raises `sqlite3.IntegrityError`, which is caught and turned into `false`
after the transaction is rolled back. -/
def add_user (now : Nat) (telegram_id : Int) (apellidos_autorizado nombre_autorizado : String)
    (datos_autorizado : Option (List (String × JVal))) (st : DBState) : DBState × Bool :=
  if st.users.any (fun u => u.telegram_id == telegram_id) then (st, false)
  else
    (⟨st.users ++
        [⟨telegram_id, apellidos_autorizado, nombre_autorizado,
          serialize_json (datos_autorizado.getD []), now, now⟩],
      st.students, st.next_id⟩,
      true)

/-- Model of `Database.add_student`.  The whole body runs in one transaction
(`get_connection`): on any exception the transaction is rolled back, so
the state reverts to `st`.  Only `sqlite3.IntegrityError` is caught
(returning `false`); the Boolean `fault` abstracts a non-integrity engine
error raised by SQLite during the transaction, which propagates to the
caller. -/
def add_student (fault : Bool) (now : Nat) (telegram_id : Int)
    (clave_instituto nombre_estudiante apellidos_estudiante : String)
    (grado grupo nivel_escolar : Option String)
    (datos_estudiante : Option (List (String × JVal)))
    (apellidos_autorizado nombre_autorizado : Option String)
    (datos_autorizado : Option (List (String × JVal)))
    (st : DBState) : DBState × Except SqlError Bool :=
  if fault then (st, .error .operationalError)
  else
    let st1 : DBState :=
      if truthyStr apellidos_autorizado && truthyStr nombre_autorizado then
        ⟨replaceUser now telegram_id (apellidos_autorizado.getD "")
            (nombre_autorizado.getD "") (serialize_json (datos_autorizado.getD []))
            st.users,
          st.students, st.next_id⟩
      else st
    if st1.students.any (fun s =>
        s.telegram_id == telegram_id &&
        s.apellidos_estudiante == apellidos_estudiante &&
        s.nombre_estudiante == nombre_estudiante) then
      (st, .ok false)
    else
      (⟨st1.users,
        st1.students ++
          [⟨st1.next_id, telegram_id, clave_instituto, nombre_estudiante,
            apellidos_estudiante, grado, grupo, nivel_escolar,
            serialize_json (datos_estudiante.getD []), now, now⟩],
        st1.next_id + 1⟩,
        .ok true)

/-- The fixed allow-list of `update_student`. -/
def allowed_fields : List String :=
  ["clave_instituto", "apellidos_estudiante", "nombre_estudiante",
   "grado", "grupo", "nivel_escolar", "datos_estudiante"]

/-- The fixed allow-list of `update_user`. -/
def allowed_fields_user : List String :=
  ["apellidos_autorizado", "nombre_autorizado", "datos_autorizado"]

/-- The SQL parameter actually bound for an update: a dictionary is
serialized only when the field is the side document; binding a dictionary
for any other field makes `sqlite3` raise (caught by
`except Exception`), modelled as `none`. -/
def bindValue (docField : String) (field : String) (value : PyValue) : Option String :=
  match value with
  | .str s => some s
  | .obj m => if field == docField then some (serialize_json m) else none

/-- Effect of `UPDATE students SET <field> = ?` on one row. -/
def setStudentField (field : String) (v : String) (now : Nat) (s : StudentRow) : StudentRow :=
  if field == "clave_instituto" then { s with clave_instituto := v, updated_at := now }
  else if field == "apellidos_estudiante" then { s with apellidos_estudiante := v, updated_at := now }
  else if field == "nombre_estudiante" then { s with nombre_estudiante := v, updated_at := now }
  else if field == "grado" then { s with grado := some v, updated_at := now }
  else if field == "grupo" then { s with grupo := some v, updated_at := now }
  else if field == "nivel_escolar" then { s with nivel_escolar := some v, updated_at := now }
  else if field == "datos_estudiante" then { s with datos_estudiante := v, updated_at := now }
  else s

/-- Effect of `UPDATE users SET <field> = ?` on one row. -/
def setUserField (field : String) (v : String) (now : Nat) (u : UserRow) : UserRow :=
  if field == "apellidos_autorizado" then { u with apellidos_autorizado := v, updated_at := now }
  else if field == "nombre_autorizado" then { u with nombre_autorizado := v, updated_at := now }
  else if field == "datos_autorizado" then { u with datos_autorizado := v, updated_at := now }
  else u

/-- Effect of `SELECT id FROM students WHERE telegram_id = ? ORDER BY created_at ASC
LIMIT 1`: the id of the earliest-created student of the identity (first
in scan order among ties). -/
def earliest_id (students : List StudentRow) (telegram_id : Int) : Option Nat :=
  let mine := students.filter (fun s => s.telegram_id == telegram_id)
  (mine.foldl
      (fun acc s =>
        match acc with
        | none => some s
        | some b => if s.created_at < b.created_at then some s else acc)
      none).map (fun s => s.id)

/-- Model of `Database.update_student`: rejects fields outside the allow-list
before touching the store; `if student_id:` is Python truthiness, so
`0`/`None` both fall back to the earliest-created student. -/
def update_student (now : Nat) (telegram_id : Int) (field : String) (value : PyValue)
    (student_id : Option Nat) (st : DBState) : DBState × Bool :=
  if field ∈ allowed_fields then
    match bindValue "datos_estudiante" field value with
    | none => (st, false)
    | some v =>
      let target : Option Nat :=
        match student_id with
        | some i => if i == 0 then earliest_id st.students telegram_id else some i
        | none => earliest_id st.students telegram_id
      match target with
      | none => (st, false)
      | some i =>
        (⟨st.users,
          st.students.map (fun s =>
            if s.telegram_id == telegram_id && s.id == i then setStudentField field v now s
            else s),
          st.next_id⟩,
          st.students.any (fun s => s.telegram_id == telegram_id && s.id == i))
  else (st, false)

/-- Model of `Database.update_user`: same pattern over the `users` table. -/
def update_user (now : Nat) (telegram_id : Int) (field : String) (value : PyValue)
    (st : DBState) : DBState × Bool :=
  if field ∈ allowed_fields_user then
    match bindValue "datos_autorizado" field value with
    | none => (st, false)
    | some v =>
      (⟨st.users.map (fun u =>
          if u.telegram_id == telegram_id then setUserField field v now u else u),
        st.students, st.next_id⟩,
        st.users.any (fun u => u.telegram_id == telegram_id))
  else (st, false)

/-- Model of `Database.delete_student`: deletes one row (`if student_id:` truthy)
or every row of the identity; returns whether any row was deleted.  It
never touches the `users` table. -/
def delete_student (telegram_id : Int) (student_id : Option Nat) (st : DBState) :
    DBState × Bool :=
  let hit : StudentRow → Bool :=
    match student_id with
    | some i =>
      if i == 0 then fun s => s.telegram_id == telegram_id
      else fun s => s.telegram_id == telegram_id && s.id == i
    | none => fun s => s.telegram_id == telegram_id
  let remaining := st.students.filter (fun s => !(hit s))
  (⟨st.users, remaining, st.next_id⟩, remaining.length < st.students.length)

/-- Model of `Database.get_student_count`: `SELECT COUNT(*) FROM students WHERE
telegram_id = ?`. -/
def get_student_count (telegram_id : Int) (st : DBState) : Nat :=
  (st.students.filter (fun s => s.telegram_id == telegram_id)).length

/-- Invariant: at most one Guardian (`users`) row per chat identity —
enforced in the schema by `telegram_id INTEGER PRIMARY KEY`. -/
def users_unique (st : DBState) : Prop :=
  (st.users.map (fun u => u.telegram_id)).Nodup

/-- Invariant: `students.id` values are pairwise distinct (`INTEGER
PRIMARY KEY AUTOINCREMENT`). -/
def student_ids_nodup (st : DBState) : Prop :=
  (st.students.map (fun s => s.id)).Nodup

/-- The next character of the input (if any) is not a decimal digit —
the condition under which greedy number parsing stops exactly at a
token boundary. -/
def headNotDigit : List Char → Prop
  | [] => True
  | c :: _ => c.isDigit = false

end Database

namespace Bot

/-- One entry of `cct.json`'s `claves_validas` array: the `cct` key plus
whatever other keys the catalogue stores. -/
structure CctEntry where
  cct : String
  rest : List (String × Database.JVal)
deriving DecidableEq, Repr

/-- The decoded content of `cct.json`. -/
structure CctData where
  claves_validas : List CctEntry
deriving DecidableEq, Repr

/-- Model of `load_cct_data`: the file system is modelled as `Option CctData`;
a missing or unparseable `cct.json` is logged and replaced by
`{"claves_validas": []}`. -/
def load_cct_data (file : Option CctData) : CctData :=
  file.getD ⟨[]⟩

/-- Model of `validate_cct`: uppercases the submitted key and strict-matches it
against the catalogue's `cct` entries. -/
def validate_cct (file : Option CctData) (cct : String) : Bool :=
  let cct_data := load_cct_data file
  let claves_validas := cct_data.claves_validas.map (fun item => item.cct)
  claves_validas.contains cct.toUpper

/-- Model of `get_grados_por_nivel`: the fixed level-to-grade dictionary, looked up
on the lowercased level with default `['1'..'6']`. -/
def get_grados_por_nivel (nivel : String) : List String :=
  let grados_map : List (String × List String) :=
    [("maternal", ["1", "2", "3"]),
     ("preescolar", ["1", "2", "3"]),
     ("primaria", ["1", "2", "3", "4", "5", "6"]),
     ("secundaria", ["1", "2", "3"]),
     ("bachillerato", ["1", "2", "3"]),
     ("universidad", ["1", "2", "3", "4", "5", "6", "7", "8"])]
  ((grados_map.lookup nivel.toLower).getD ["1", "2", "3", "4", "5", "6"])

/-- Modelled from the spec: the reference level-to-grade table of the
claim, matched case-insensitively, to be compared with
`get_grados_por_nivel`. -/
def gradosReferencia (nivel : String) : List String :=
  let l := nivel.toLower
  if l = "maternal" ∨ l = "preescolar" ∨ l = "secundaria" ∨ l = "bachillerato" then
    ["1", "2", "3"]
  else if l = "primaria" then ["1", "2", "3", "4", "5", "6"]
  else if l = "universidad" then ["1", "2", "3", "4", "5", "6", "7", "8"]
  else ["1", "2", "3", "4", "5", "6"]

/-- The `ConversationHandler` states of the registration flow
(`range(10)` in the source, named as there). -/
inductive BotState where
  | CLAVE_INSTITUTO
  | NOMBRE_ESTUDIANTE
  | APELLIDOS_ESTUDIANTE
  | NIVEL_ESCOLAR
  | GRADO
  | GRUPO
  | DATOS_DINAMICOS_ESTUDIANTE
  | NOMBRE_AUTORIZADO
  | APELLIDOS_AUTORIZADO
  | DATOS_DINAMICOS_AUTORIZADO
deriving DecidableEq, Repr

/-- Presence of the five progress keys in `context.user_data` that
`continue_register` inspects. -/
structure UserData where
  clave_instituto : Bool
  apellidos_estudiante : Bool
  nombre_estudiante : Bool
  apellidos_autorizado : Bool
  nombre_autorizado : Bool
deriving DecidableEq, Repr

/-- The routing of `continue_register` (the happy path, after the
callback query is answered): key-presence checks in the source's order. -/
def continue_register (ud : UserData) : BotState :=
  if !(ud.clave_instituto || ud.apellidos_estudiante || ud.nombre_estudiante ||
        ud.apellidos_autorizado || ud.nombre_autorizado) then
    .CLAVE_INSTITUTO
  else if !ud.clave_instituto then .CLAVE_INSTITUTO
  else if !ud.apellidos_estudiante then .APELLIDOS_ESTUDIANTE
  else if !ud.nombre_estudiante then .NOMBRE_ESTUDIANTE
  else if !ud.apellidos_autorizado then .APELLIDOS_AUTORIZADO
  else .NOMBRE_AUTORIZADO

/-- The state returned by the `clave_instituto` handler of the main flow:
a valid key advances to the student given-name prompt. -/
def clave_instituto_handler (valid : Bool) : BotState :=
  if valid then .NOMBRE_ESTUDIANTE else .CLAVE_INSTITUTO

end Bot

section JsonSanity

example : Database.serialize_json [] = "\x7b\x7d" := by rfl

example : Database.deserialize_json "" = [] := by rfl

example : Database.deserialize_json "xyz" = [] := by rfl

example :
    Database.deserialize_json (Database.serialize_json [("a", .int 3), ("b", .str "x")]) =
      [("a", .int 3), ("b", .str "x")] := by rfl

example :
    Database.deserialize_json (Database.serialize_json [("q", .str "a\"b\\c")]) =
      [("q", .str "a\"b\\c")] := by rfl

example :
    Database.deserialize_json (Database.serialize_json [("n", .int (-12)), ("t", .bool true), ("z", .null)]) =
      [("n", .int (-12)), ("t", .bool true), ("z", .null)] := by rfl

end JsonSanity

namespace Database

/-! ### Round-trip of the JSON side-document (de)serialization -/

theorem hexVal_hexDigitChar (n : Nat) (h : n < 16) : hexVal (hexDigitChar n) = some n := by
  interval_cases n <;> rfl

theorem char_ofNat_toNat (c : Char) : Char.ofNat c.toNat = c :=
  Char.ofNat_toNat c

theorem parseStrBody_escList (cs : List Char) (tail : List Char) :
    parseStrBody (escList cs ++ '"' :: tail) = some (cs, tail) := by
  induction cs with
  | nil => simp [escList, parseStrBody]
  | cons c cs ih =>
    show parseStrBody (escapeChar c ++ escList cs ++ '"' :: tail) = _
    by_cases h1 : c = '"'
    · subst h1; simp [escapeChar, parseStrBody, parseEsc, escDecode, ih]
    · by_cases h2 : c = '\\'
      · subst h2; simp [escapeChar, parseStrBody, parseEsc, escDecode, ih]
      · by_cases h3 : c = '\n'
        · subst h3; simp [escapeChar, parseStrBody, parseEsc, escDecode, ih]
        · by_cases h4 : c = '\r'
          · subst h4; simp [escapeChar, parseStrBody, parseEsc, escDecode, ih]
          · by_cases h5 : c = '\t'
            · subst h5; simp [escapeChar, parseStrBody, parseEsc, escDecode, ih]
            · by_cases h6 : c.toNat = 8
              · have hc : c = Char.ofNat 8 := by rw [← h6, char_ofNat_toNat]
                subst hc
                simp [escapeChar, parseStrBody, parseEsc, escDecode, ih]
              · by_cases h7 : c.toNat = 12
                · have hc : c = Char.ofNat 12 := by rw [← h7, char_ofNat_toNat]
                  subst hc
                  simp [escapeChar, parseStrBody, parseEsc, escDecode, ih]
                · by_cases h8 : c.toNat < 32
                  · have he : escapeChar c =
                        ['\\', 'u', '0', '0', hexDigitChar (c.toNat / 16),
                         hexDigitChar (c.toNat % 16)] := by
                      simp [escapeChar, h1, h2, h3, h4, h5, h6, h7, h8]
                    rw [he]
                    have hd1 : hexVal (hexDigitChar (c.toNat / 16)) = some (c.toNat / 16) :=
                      hexVal_hexDigitChar _ (by omega)
                    have hd2 : hexVal (hexDigitChar (c.toNat % 16)) = some (c.toNat % 16) :=
                      hexVal_hexDigitChar _ (by omega)
                    have hn : 4096 * 0 + 256 * 0 + 16 * (c.toNat / 16) + c.toNat % 16 = c.toNat := by
                      omega
                    simp [parseStrBody, parseEsc, hexVal4, hd1, hd2,
                      (show hexVal '0' = some 0 from rfl), hn, char_ofNat_toNat, ih]
                    rw [show 16 * (c.toNat / 16) + c.toNat % 16 = c.toNat by omega,
                      char_ofNat_toNat]
                  · have he : escapeChar c = [c] := by
                      simp [escapeChar, h1, h2, h3, h4, h5, h6, h7, h8]
                    rw [he]
                    simp [parseStrBody, h1, h2, h8, ih]

theorem digitChar_isDigit (n : Nat) (h : n < 10) : (digitChar n).isDigit = true := by
  interval_cases n <;> rfl

theorem digitChar_val (n : Nat) (h : n < 10) : (digitChar n).toNat - 48 = n := by
  interval_cases n <;> rfl

theorem digitsVal_concat (xs : List Char) (d : Char) :
    digitsVal (xs ++ [d]) = 10 * digitsVal xs + (d.toNat - 48) := by
  simp [digitsVal, List.foldl_append]

theorem natDigitsAux_spec (fuel : Nat) : ∀ n, n < fuel →
    digitsVal (natDigitsAux fuel n) = n ∧ natDigitsAux fuel n ≠ [] ∧
      ∀ c ∈ natDigitsAux fuel n, c.isDigit = true := by
  induction fuel with
  | zero => intro n h; omega
  | succ f ih =>
    intro n h
    by_cases h10 : n < 10
    · refine ⟨?_, by simp [natDigitsAux, h10], ?_⟩
      · simp [natDigitsAux, h10, digitsVal, digitChar_val n h10]
      · intro c hc
        simp [natDigitsAux, h10] at hc
        rw [hc]
        exact digitChar_isDigit n h10
    · have hlt : n / 10 < n := Nat.div_lt_self (by omega) (by omega)
      obtain ⟨ih1, _, ih3⟩ := ih (n / 10) (by omega)
      refine ⟨?_, by simp [natDigitsAux, h10], ?_⟩
      · rw [show natDigitsAux (f + 1) n
            = natDigitsAux f (n / 10) ++ [digitChar (n % 10)] by simp [natDigitsAux, h10]]
        rw [digitsVal_concat, ih1, digitChar_val (n % 10) (by omega)]
        omega
      · intro c hc
        rw [show natDigitsAux (f + 1) n
            = natDigitsAux f (n / 10) ++ [digitChar (n % 10)] by simp [natDigitsAux, h10]] at hc
        rcases List.mem_append.mp hc with hc | hc
        · exact ih3 c hc
        · rw [List.mem_singleton.mp hc]
          exact digitChar_isDigit (n % 10) (by omega)

theorem natDigits_spec (n : Nat) :
    digitsVal (natDigits n) = n ∧ natDigits n ≠ [] ∧
      ∀ c ∈ natDigits n, c.isDigit = true :=
  natDigitsAux_spec (n + 1) n (by omega)

theorem parseDigits_append (ds tail : List Char) (hds : ∀ c ∈ ds, c.isDigit = true)
    (ht : headNotDigit tail) : parseDigits (ds ++ tail) = (ds, tail) := by
  induction ds with
  | nil =>
    cases tail with
    | nil => rfl
    | cons c t =>
      have hc : c.isDigit = false := ht
      simp [parseDigits, hc]
  | cons d ds ih =>
    have hd : d.isDigit = true := hds d (List.mem_cons_self d ds)
    simp [parseDigits, hd, ih (fun c hc => hds c (List.mem_cons_of_mem d hc))]

theorem isDigit_ne (c : Char) (h : c.isDigit = true) :
    c ≠ '"' ∧ c ≠ 't' ∧ c ≠ 'f' ∧ c ≠ 'n' ∧ c ≠ '-' := by
  refine ⟨?_, ?_, ?_, ?_, ?_⟩ <;> (rintro rfl; exact absurd h (by decide))

theorem parseVal_neg_eq (rest : List Char) :
    parseVal ('-' :: rest) =
      match parseDigits rest with
      | ([], _) => none
      | (ds, rest2) => some (.int (-(digitsVal ds : Int)), rest2) := rfl

theorem parseVal_encVal (v : JVal) (tail : List Char) (ht : headNotDigit tail) :
    parseVal (encVal v ++ tail) = some (v, tail) := by
  cases v with
  | str s =>
    rw [show encVal (.str s) ++ tail
        = '"' :: (escList s.data ++ '"' :: tail) by simp [encVal, encStr]]
    simp [parseVal, parseStrBody_escList]
  | int n =>
    by_cases hneg : n < 0
    · rw [show encVal (.int n) ++ tail
          = '-' :: (natDigits n.natAbs ++ tail) by simp [encVal, encInt, hneg]]
      obtain ⟨hv, hne, hdig⟩ := natDigits_spec n.natAbs
      rw [parseVal_neg_eq, parseDigits_append _ _ hdig ht]
      obtain ⟨d, ds, hds⟩ := List.exists_cons_of_ne_nil hne
      rw [hds]
      show some (JVal.int (-(digitsVal (d :: ds) : Int)), tail) = some (JVal.int n, tail)
      rw [show digitsVal (d :: ds) = n.natAbs by rw [← hds, hv]]
      rw [show (-(n.natAbs : Int)) = n by omega]
    · rw [show encVal (.int n) ++ tail
          = natDigits n.toNat ++ tail by simp [encVal, encInt, hneg]]
      obtain ⟨hv, hne, hdig⟩ := natDigits_spec n.toNat
      obtain ⟨d, ds, hds⟩ := List.exists_cons_of_ne_nil hne
      have hd : d.isDigit = true := hdig d (by rw [hds]; exact List.mem_cons_self d ds)
      obtain ⟨n1, n2, n3, n4, n5⟩ := isDigit_ne d hd
      rw [hds, List.cons_append]
      simp only [parseVal, n1, n2, n3, n4, n5, hd, if_true, if_false]
      rw [← List.cons_append, ← hds, parseDigits_append _ _ hdig ht]
      simp only []
      rw [hv, show ((n.toNat : Int)) = n by omega]
  | bool b => cases b <;> rfl
  | null => rfl

theorem skipWs_cons_not (c : Char) (l : List Char) (h : isWs c = false) :
    skipWs (c :: l) = c :: l := by
  simp [skipWs, h]

theorem skipWs_cons_ws (c : Char) (l : List Char) (h : isWs c = true) :
    skipWs (c :: l) = skipWs l := by
  simp [skipWs, h]

theorem isDigit_not_ws (c : Char) (h : c.isDigit = true) : isWs c = false := by
  simp only [isWs, Bool.or_eq_false_iff, decide_eq_false_iff_not]
  refine ⟨⟨⟨?_, ?_⟩, ?_⟩, ?_⟩ <;> (rintro rfl; exact absurd h (by decide))

theorem skipWs_encVal (v : JVal) (l : List Char) :
    skipWs (encVal v ++ l) = encVal v ++ l := by
  cases v with
  | str s => exact skipWs_cons_not _ _ (by decide)
  | int n =>
    by_cases hneg : n < 0
    · rw [show encVal (.int n) ++ l
          = '-' :: (natDigits n.natAbs ++ l) by simp [encVal, encInt, hneg]]
      exact skipWs_cons_not _ _ (by decide)
    · rw [show encVal (.int n) ++ l
          = natDigits n.toNat ++ l by simp [encVal, encInt, hneg]]
      obtain ⟨_, hne, hdig⟩ := natDigits_spec n.toNat
      obtain ⟨d, ds, hds⟩ := List.exists_cons_of_ne_nil hne
      have hd : d.isDigit = true := hdig d (by rw [hds]; exact List.mem_cons_self d ds)
      rw [hds, List.cons_append]
      exact skipWs_cons_not _ _ (isDigit_not_ws d hd)
  | bool b => cases b <;> exact skipWs_cons_not _ _ (by decide)
  | null => exact skipWs_cons_not _ _ (by decide)

theorem parsePair_enc (k : String) (v : JVal) (rest : List Char) (ht : headNotDigit rest) :
    parsePair (encStr k ++ ':' :: ' ' :: (encVal v ++ rest)) = some ((k, v), rest) := by
  rw [show encStr k ++ ':' :: ' ' :: (encVal v ++ rest)
      = '"' :: (escList k.data ++ '"' :: (':' :: ' ' :: (encVal v ++ rest))) by
    simp [encStr]]
  unfold parsePair
  rw [skipWs_cons_not _ _ (by decide)]
  show parsePairAfterQuote (escList k.data ++ '"' :: (':' :: ' ' :: (encVal v ++ rest)))
      = some ((k, v), rest)
  unfold parsePairAfterQuote
  rw [parseStrBody_escList]
  show parsePairColon k.data (':' :: ' ' :: (encVal v ++ rest)) = some ((k, v), rest)
  unfold parsePairColon
  rw [skipWs_cons_not _ _ (by decide)]
  show parsePairValue k.data (' ' :: (encVal v ++ rest)) = some ((k, v), rest)
  unfold parsePairValue
  rw [skipWs_cons_ws _ _ (by decide), skipWs_encVal, parseVal_encVal v rest ht]

theorem parsePair_cons_ws (c : Char) (h : isWs c = true) (l : List Char) :
    parsePair (c :: l) = parsePair l := by
  unfold parsePair
  rw [skipWs_cons_ws c l h]

theorem parseMembers_cons_ws (fuel : Nat) (c : Char) (h : isWs c = true) (l : List Char) :
    parseMembers fuel (c :: l) = parseMembers fuel l := by
  cases fuel with
  | zero => rfl
  | succ f =>
    unfold parseMembers
    rw [parsePair_cons_ws c h l]

theorem parseMembers_enc (m : List (String × JVal)) : ∀ (fuel : Nat) (tail : List Char),
    m ≠ [] → m.length ≤ fuel →
    parseMembers fuel (encMembers m ++ rbrace :: tail) = some (m, tail) := by
  induction m with
  | nil => intro fuel tail hne _; exact absurd rfl hne
  | cons p m ih =>
    intro fuel tail _ hlen
    obtain ⟨k, v⟩ := p
    cases fuel with
    | zero => simp at hlen
    | succ f =>
      cases m with
      | nil =>
        rw [show encMembers [(k, v)] ++ rbrace :: tail
            = encStr k ++ ':' :: ' ' :: (encVal v ++ rbrace :: tail) by
          simp [encMembers]]
        unfold parseMembers
        rw [parsePair_enc k v (rbrace :: tail) (by
          show rbrace.isDigit = false
          decide)]
        show parseMembersSep (parseMembers f) (k, v) (rbrace :: tail) = some ([(k, v)], tail)
        unfold parseMembersSep
        rw [skipWs_cons_not _ _ (by decide)]
        rfl
      | cons q m' =>
        rw [show encMembers ((k, v) :: q :: m') ++ rbrace :: tail
            = encStr k ++ ':' :: ' ' ::
                (encVal v ++ ',' :: ' ' :: (encMembers (q :: m') ++ rbrace :: tail)) by
          simp [encMembers]]
        unfold parseMembers
        rw [parsePair_enc k v (',' :: ' ' :: (encMembers (q :: m') ++ rbrace :: tail)) (by
          show (',' : Char).isDigit = false
          decide)]
        show parseMembersSep (parseMembers f) (k, v)
            (',' :: ' ' :: (encMembers (q :: m') ++ rbrace :: tail))
          = some ((k, v) :: q :: m', tail)
        unfold parseMembersSep
        rw [skipWs_cons_not _ _ (by decide)]
        show (parseMembers f (' ' :: (encMembers (q :: m') ++ rbrace :: tail))).map
            (fun q2 => ((k, v) :: q2.1, q2.2)) = some ((k, v) :: q :: m', tail)
        rw [parseMembers_cons_ws f ' ' (by decide) _]
        rw [ih f tail (by simp) (by simp only [List.length_cons] at hlen ⊢; omega)]
        rfl

theorem encMembers_length (m : List (String × JVal)) :
    m.length ≤ (encMembers m).length := by
  induction m with
  | nil => simp [encMembers]
  | cons p m ih =>
    obtain ⟨k, v⟩ := p
    cases m with
    | nil =>
      simp only [encMembers, List.length_append, List.length_cons, List.length_nil]
      omega
    | cons q m' =>
      simp only [encMembers, List.length_append, List.length_cons] at ih ⊢
      omega

theorem foldl_dictInsert (m : List (String × JVal)) : ∀ acc : List (String × JVal),
    (m.map Prod.fst).Nodup → (∀ p ∈ acc, ∀ q ∈ m, p.1 ≠ q.1) →
    m.foldl (fun d p => dictInsert d p.1 p.2) acc = acc ++ m := by
  induction m with
  | nil => intro acc _ _; simp
  | cons p m ih =>
    intro acc hnd hdisj
    have hnd' := hnd
    simp only [List.map_cons, List.nodup_cons] at hnd'
    simp only [List.foldl_cons]
    have hnotin : (acc.any (fun q => q.1 == p.1)) = false := by
      rw [List.any_eq_false]
      intro q hq
      simpa using hdisj q hq p (List.mem_cons_self p m)
    rw [show dictInsert acc p.1 p.2 = acc ++ [p] by simp [dictInsert, hnotin]]
    rw [ih (acc ++ [p]) hnd'.2 ?_]
    · simp
    · intro x hx q hq
      rcases List.mem_append.mp hx with hx | hx
      · exact hdisj x hx q (List.mem_cons_of_mem p hq)
      · rw [List.mem_singleton.mp hx]
        intro he
        exact hnd'.1 (he ▸ List.mem_map_of_mem Prod.fst hq)

theorem buildDict_self (m : List (String × JVal)) (h : (m.map Prod.fst).Nodup) :
    buildDict m = m := by
  unfold buildDict
  rw [foldl_dictInsert m [] h (by simp)]
  simp

theorem json_loads_serialize (m : List (String × JVal)) (h : (m.map Prod.fst).Nodup) :
    json_loads (serialize_json m) = some m := by
  cases m with
  | nil => rfl
  | cons p m' =>
    have hdata : (serialize_json (p :: m')).data
        = lbrace :: (encMembers (p :: m') ++ [rbrace]) := rfl
    unfold json_loads
    rw [hdata, skipWs_cons_not _ _ (by decide)]
    show loadsObj (encMembers (p :: m') ++ [rbrace]) = some (p :: m')
    obtain ⟨k, v⟩ := p
    obtain ⟨t0, ht0⟩ : ∃ t0, encMembers ((k, v) :: m') = '"' :: t0 := by
      cases m' with
      | nil =>
        exact ⟨escList k.data ++ '"' :: ':' :: ' ' :: encVal v,
          by simp [encMembers, encStr]⟩
      | cons q m'' =>
        exact ⟨escList k.data ++
            '"' :: ':' :: ' ' :: (encVal v ++ ',' :: ' ' :: encMembers (q :: m'')),
          by simp [encMembers, encStr]⟩
    have hht : encMembers ((k, v) :: m') ++ [rbrace] = '"' :: (t0 ++ [rbrace]) := by
      rw [ht0]; rfl
    unfold loadsObj
    rw [hht, skipWs_cons_not _ _ (by decide)]
    show loadsMembers ('"' :: (t0 ++ [rbrace])) = some ((k, v) :: m')
    rw [← hht]
    unfold loadsMembers
    have hfuel : ((k, v) :: m').length
        ≤ (encMembers ((k, v) :: m') ++ [rbrace]).length + 1 := by
      have := encMembers_length ((k, v) :: m')
      simp only [List.length_append] at *
      omega
    rw [parseMembers_enc ((k, v) :: m') _ [] (by simp) hfuel]
    show (if skipWs [] = [] then some (buildDict ((k, v) :: m')) else none)
      = some ((k, v) :: m')
    rw [buildDict_self _ h]
    rfl

end Database

/-! ### Claim theorems -/

/-- C4: for every mapping from string keys to string, number, boolean or
null values, deserializing the result of serializing that mapping yields
a mapping equal to the original (`serialize_json` followed by
`deserialize_json` is the identity on such mappings). -/
theorem serialize_deserialize_roundtrip (m : List (String × Database.JVal))
    (h : (m.map Prod.fst).Nodup) :
    Database.deserialize_json (Database.serialize_json m) = m := by
  unfold Database.deserialize_json
  rw [if_neg ?hne, Database.json_loads_serialize m h]
  case hne =>
    intro he
    have hd := congrArg String.data he
    rw [show (Database.serialize_json m).data
        = Database.lbrace :: (Database.encMembers m ++ [Database.rbrace]) from rfl] at hd
    simp at hd

theorem serialize_deserialize_roundtrip_witness :
    (([("a\"b", Database.JVal.str "x\\y\n"), ("n", Database.JVal.int (-42)),
       ("t", Database.JVal.bool true), ("z", Database.JVal.null),
       ("u", Database.JVal.int 17)].map Prod.fst).Nodup) ∧
    Database.deserialize_json (Database.serialize_json
        [("a\"b", Database.JVal.str "x\\y\n"), ("n", Database.JVal.int (-42)),
         ("t", Database.JVal.bool true), ("z", Database.JVal.null),
         ("u", Database.JVal.int 17)])
      = [("a\"b", Database.JVal.str "x\\y\n"), ("n", Database.JVal.int (-42)),
         ("t", Database.JVal.bool true), ("z", Database.JVal.null),
         ("u", Database.JVal.int 17)] :=
  ⟨by decide, serialize_deserialize_roundtrip _ (by decide)⟩

/-- C5: for every input string, `deserialize_json` is total (modelling
that the Python function never raises), and whenever the text fails to
decode or is empty it returns the empty mapping. -/
theorem deserialize_json_never_raises (s : String)
    (h : Database.json_loads s = none ∨ s = "") :
    Database.deserialize_json s = [] := by
  unfold Database.deserialize_json
  by_cases he : s = ""
  · rw [if_pos he]
  · rw [if_neg he]
    rcases h with h | h
    · rw [h]
    · exact absurd h he

theorem deserialize_json_never_raises_witness :
    (Database.json_loads "ab" = none ∨ "ab" = "") ∧
    Database.deserialize_json "ab" = [] :=
  ⟨Or.inl rfl, deserialize_json_never_raises "ab" (Or.inl rfl)⟩

/-- C3: for every chat identity, value and optional student id, calling
`update_student` with a field name outside the fixed allow-list returns a
not-updated result and leaves the stored state completely unchanged. -/
theorem update_student_rejects_unknown_field (now : Nat) (telegram_id : Int)
    (field : String) (value : Database.PyValue) (student_id : Option Nat)
    (st : Database.DBState) (h : field ∉ Database.allowed_fields) :
    Database.update_student now telegram_id field value student_id st = (st, false) := by
  unfold Database.update_student
  rw [if_neg h]

theorem update_student_rejects_unknown_field_witness :
    ("telegram_id" ∉ Database.allowed_fields) ∧
    Database.update_student 0 1 "telegram_id" (Database.PyValue.str "9")
        (some 1) ⟨[], [], 1⟩
      = (⟨[], [], 1⟩, false) :=
  ⟨by decide, update_student_rejects_unknown_field 0 1 "telegram_id"
    (Database.PyValue.str "9") (some 1) ⟨[], [], 1⟩ (by decide)⟩

/-- C10: when a Guardian row already exists for a chat identity,
`add_user` returns `false` and leaves the state (in particular the
existing row) unchanged: it inserts only, never replaces. -/
theorem add_user_insert_only (now : Nat) (telegram_id : Int)
    (apellidos nombre : String) (datos : Option (List (String × Database.JVal)))
    (st : Database.DBState) (h : ∃ u ∈ st.users, u.telegram_id = telegram_id) :
    Database.add_user now telegram_id apellidos nombre datos st = (st, false) := by
  obtain ⟨u, hu, he⟩ := h
  unfold Database.add_user
  rw [if_pos (List.any_eq_true.mpr ⟨u, hu, by simp [he]⟩)]

theorem add_user_insert_only_witness :
    (∃ u ∈ (⟨[⟨5, "Lopez", "Ana", "\x7b\x7d", 0, 0⟩], [], 1⟩ : Database.DBState).users,
        u.telegram_id = 5) ∧
    Database.add_user 1 5 "Perez" "Luisa" none
        ⟨[⟨5, "Lopez", "Ana", "\x7b\x7d", 0, 0⟩], [], 1⟩
      = (⟨[⟨5, "Lopez", "Ana", "\x7b\x7d", 0, 0⟩], [], 1⟩, false) :=
  ⟨⟨⟨5, "Lopez", "Ana", "\x7b\x7d", 0, 0⟩, by decide, rfl⟩,
    add_user_insert_only 1 5 "Perez" "Luisa" none
      ⟨[⟨5, "Lopez", "Ana", "\x7b\x7d", 0, 0⟩], [], 1⟩
      ⟨⟨5, "Lopez", "Ana", "\x7b\x7d", 0, 0⟩, by decide, rfl⟩⟩

/-- C2, counterexample: with a non-integrity engine error during the
transaction, `add_student` does not return `false`: the exception
propagates (only `sqlite3.IntegrityError` is caught). -/
theorem add_student_raises_counterexample :
    (Database.add_student true 0 1 "CCT1" "Juan" "Perez" none none none none
        (some "Lopez") (some "Ana") none ⟨[], [], 1⟩).2
      = Except.error Database.SqlError.operationalError ∧
    (Database.add_student true 0 1 "CCT1" "Juan" "Perez" none none none none
        (some "Lopez") (some "Ana") none ⟨[], [], 1⟩).2 ≠ Except.ok false := by
  refine ⟨rfl, ?_⟩
  intro hc
  rw [show (Database.add_student true 0 1 "CCT1" "Juan" "Perez" none none none none
      (some "Lopez") (some "Ana") none ⟨[], [], 1⟩).2
      = Except.error Database.SqlError.operationalError from rfl] at hc
  exact Except.noConfusion hc

/-- C2, amended: `add_student` returns `false` with the state rolled back
(guardian upsert included) on an integrity violation such as a duplicate
student name; on a non-integrity engine error the transaction is still
rolled back but the exception propagates instead of returning `false`. -/
theorem add_student_failure_behaviour (now : Nat) (telegram_id : Int)
    (clave nombre apellidos : String) (grado grupo nivel : Option String)
    (de : Option (List (String × Database.JVal))) (aa na : Option String)
    (da : Option (List (String × Database.JVal))) (st : Database.DBState)
    (hdup : st.students.any (fun s =>
        s.telegram_id == telegram_id && s.apellidos_estudiante == apellidos &&
          s.nombre_estudiante == nombre) = true) :
    Database.add_student false now telegram_id clave nombre apellidos grado grupo nivel
        de aa na da st = (st, Except.ok false) ∧
    Database.add_student true now telegram_id clave nombre apellidos grado grupo nivel
        de aa na da st = (st, Except.error Database.SqlError.operationalError) := by
  refine ⟨?_, rfl⟩
  unfold Database.add_student
  cases hgb : (Database.truthyStr aa && Database.truthyStr na) <;> simp [hgb, hdup]

theorem add_student_failure_behaviour_witness :
    ((⟨[], [⟨1, 7, "CCT1", "Juan", "Perez", none, none, none, "\x7b\x7d", 0, 0⟩], 2⟩ :
        Database.DBState).students.any (fun s =>
        s.telegram_id == 7 && s.apellidos_estudiante == "Perez" &&
          s.nombre_estudiante == "Juan") = true) ∧
    (Database.add_student false 3 7 "CCT1" "Juan" "Perez" none none none none
        (some "Lopez") (some "Ana") none
        ⟨[], [⟨1, 7, "CCT1", "Juan", "Perez", none, none, none, "\x7b\x7d", 0, 0⟩], 2⟩
      = (⟨[], [⟨1, 7, "CCT1", "Juan", "Perez", none, none, none, "\x7b\x7d", 0, 0⟩], 2⟩,
          Except.ok false) ∧
     Database.add_student true 3 7 "CCT1" "Juan" "Perez" none none none none
        (some "Lopez") (some "Ana") none
        ⟨[], [⟨1, 7, "CCT1", "Juan", "Perez", none, none, none, "\x7b\x7d", 0, 0⟩], 2⟩
      = (⟨[], [⟨1, 7, "CCT1", "Juan", "Perez", none, none, none, "\x7b\x7d", 0, 0⟩], 2⟩,
          Except.error Database.SqlError.operationalError)) :=
  ⟨by decide, add_student_failure_behaviour 3 7 "CCT1" "Juan" "Perez" none none none
    none (some "Lopez") (some "Ana") none _ (by decide)⟩

/-- C9: the level-to-grade mapping equals the fixed reference table of
the claim, matched case-insensitively: maternal, preescolar, secundaria
and bachillerato yield grades 1-3, primaria 1-6, universidad 1-8, and any
other level defaults to 1-6. -/
theorem get_grados_por_nivel_matches_reference (nivel : String) :
    Bot.get_grados_por_nivel nivel = Bot.gradosReferencia nivel := by
  by_cases h1 : nivel.toLower = "maternal"
  · simp [Bot.get_grados_por_nivel, Bot.gradosReferencia, List.lookup, h1]
  · by_cases h2 : nivel.toLower = "preescolar"
    · simp [Bot.get_grados_por_nivel, Bot.gradosReferencia, List.lookup, h1, h2]
    · by_cases h3 : nivel.toLower = "primaria"
      · simp [Bot.get_grados_por_nivel, Bot.gradosReferencia, List.lookup, h1, h2, h3]
      · by_cases h4 : nivel.toLower = "secundaria"
        · simp [Bot.get_grados_por_nivel, Bot.gradosReferencia, List.lookup, h1, h2, h3, h4]
        · by_cases h5 : nivel.toLower = "bachillerato"
          · simp [Bot.get_grados_por_nivel, Bot.gradosReferencia, List.lookup,
              h1, h2, h3, h4, h5]
          · by_cases h6 : nivel.toLower = "universidad"
            · simp [Bot.get_grados_por_nivel, Bot.gradosReferencia, List.lookup,
                h1, h2, h3, h4, h5, h6]
            · simp [Bot.get_grados_por_nivel, Bot.gradosReferencia, List.lookup,
                h1, h2, h3, h4, h5, h6,
                beq_eq_false_iff_ne.mpr h1, beq_eq_false_iff_ne.mpr h2,
                beq_eq_false_iff_ne.mpr h3, beq_eq_false_iff_ne.mpr h4,
                beq_eq_false_iff_ne.mpr h5, beq_eq_false_iff_ne.mpr h6]

/-- C6: validation succeeds exactly when the uppercased key equals one of
the `cct` entries of the loaded allow-list; with a missing file or an
empty set of valid keys it returns `false` for every key. -/
theorem validate_cct_correct (file : Option Bot.CctData) (key : String) :
    (Bot.validate_cct file key = true ↔
      ∃ e ∈ (Bot.load_cct_data file).claves_validas, key.toUpper = e.cct) ∧
    Bot.validate_cct none key = false ∧
    Bot.validate_cct (some ⟨[]⟩) key = false := by
  refine ⟨?_, rfl, rfl⟩
  unfold Bot.validate_cct
  simp [List.elem_iff, List.mem_map, eq_comm]

/-- C1: the code evaluated at the failing input: a session holding only
the institution key makes `continue_register` route to the student
surname state (`APELLIDOS_ESTUDIANTE`), not the student given-name state
(`NOMBRE_ESTUDIANTE`) that the main flow's `clave_instituto` handler
advances to, so the given-name step is skipped. -/
theorem continue_register_skips_given_name :
    Bot.continue_register ⟨true, false, false, false, false⟩
        = Bot.BotState.APELLIDOS_ESTUDIANTE ∧
    Bot.clave_instituto_handler true = Bot.BotState.NOMBRE_ESTUDIANTE ∧
    Bot.BotState.APELLIDOS_ESTUDIANTE ≠ Bot.BotState.NOMBRE_ESTUDIANTE := by
  exact ⟨rfl, rfl, by decide⟩

namespace Database

/-! ### Frame and invariant lemmas for the store operations -/

theorem length_filter_and_split {α : Type} (p q : α → Bool) (l : List α) :
    (l.filter fun x => p x && q x).length + (l.filter fun x => p x && !q x).length
      = (l.filter p).length := by
  induction l with
  | nil => rfl
  | cons h t ih =>
    cases hp : p h <;> cases hq : q h <;>
      simp [List.filter_cons, hp, hq, List.length_cons] <;> omega

theorem filter_key_eq_singleton (c : Int) (s : Nat) (l : List StudentRow)
    (hnd : (l.map (fun x => x.id)).Nodup) (r : StudentRow)
    (hr : r ∈ l) (hc : r.telegram_id = c) (hs : r.id = s) :
    l.filter (fun x => x.telegram_id == c && x.id == s) = [r] := by
  induction l with
  | nil => cases hr
  | cons h t ih =>
    simp only [List.map_cons, List.nodup_cons] at hnd
    rcases List.mem_cons.mp hr with rfl | hr
    · have hpred : (r.telegram_id == c && r.id == s) = true := by simp [hc, hs]
      simp only [List.filter_cons, hpred, if_true]
      have hnil : t.filter (fun x => x.telegram_id == c && x.id == s) = [] := by
        rw [List.filter_eq_nil_iff]
        intro x hx hxp
        simp only [Bool.and_eq_true, beq_iff_eq] at hxp
        exact hnd.1 (hs ▸ hxp.2 ▸ List.mem_map_of_mem (fun x => x.id) hx)
      rw [hnil]
    · have hne : h.id ≠ s := by
        intro he
        exact hnd.1 (he ▸ hs ▸ List.mem_map_of_mem (fun x => x.id) hr)
      have hpred : (h.telegram_id == c && h.id == s) = false := by
        simp [beq_eq_false_iff_ne.mpr hne]
      simp only [List.filter_cons, hpred, Bool.false_eq_true, if_false]
      exact ih hnd.2 hr

theorem filter_not_key_erase (c : Int) (s : Nat) (l : List StudentRow)
    (hnd : (l.map (fun x => x.id)).Nodup) (r : StudentRow)
    (hr : r ∈ l) (hc : r.telegram_id = c) (hs : r.id = s) :
    l.filter (fun x => !(x.telegram_id == c && x.id == s)) = l.erase r := by
  induction l with
  | nil => cases hr
  | cons h t ih =>
    simp only [List.map_cons, List.nodup_cons] at hnd
    rcases List.mem_cons.mp hr with rfl | hr
    · have hpred : (!(r.telegram_id == c && r.id == s)) = false := by simp [hc, hs]
      simp only [List.filter_cons, hpred, Bool.false_eq_true, if_false]
      rw [List.erase_cons_head]
      rw [List.filter_eq_self.mpr]
      intro x hx
      have hxne : x.id ≠ s := by
        intro he
        exact hnd.1 (hs ▸ he ▸ List.mem_map_of_mem (fun x => x.id) hx)
      simp [beq_eq_false_iff_ne.mpr hxne]
    · have hne : h.id ≠ s := by
        intro he
        exact hnd.1 (he ▸ hs ▸ List.mem_map_of_mem (fun x => x.id) hr)
      have hpred : (!(h.telegram_id == c && h.id == s)) = true := by
        simp [beq_eq_false_iff_ne.mpr hne]
      simp only [List.filter_cons, hpred, if_true]
      have hhr : h ≠ r := fun he => hne (by rw [he, hs])
      rw [List.erase_cons_tail]
      · rw [ih hnd.2 hr]
      · simp [hhr]

theorem delete_student_some_ne_zero (c : Int) (s : Nat) (st : DBState) (hs0 : s ≠ 0) :
    delete_student c (some s) st
      = (⟨st.users,
          st.students.filter (fun x => !(x.telegram_id == c && x.id == s)),
          st.next_id⟩,
        decide ((st.students.filter
            (fun x => !(x.telegram_id == c && x.id == s))).length
          < st.students.length)) := by
  unfold delete_student
  have hKey : (s == 0) = false := beq_eq_false_iff_ne.mpr hs0
  simp [hKey]

theorem setUserField_telegram_id (field v : String) (now : Nat) (u : UserRow) :
    (setUserField field v now u).telegram_id = u.telegram_id := by
  unfold setUserField
  split_ifs <;> rfl

theorem map_users_telegram_id (users : List UserRow) (f : UserRow → UserRow)
    (hf : ∀ u, (f u).telegram_id = u.telegram_id) :
    (users.map f).map (fun u => u.telegram_id) = users.map (fun u => u.telegram_id) := by
  induction users with
  | nil => rfl
  | cons u t ih => simp [hf, ih]

theorem replaceUser_unique (now : Nat) (tid : Int) (ap nom datos : String)
    (users : List UserRow) (h : (users.map (fun u => u.telegram_id)).Nodup) :
    ((replaceUser now tid ap nom datos users).map (fun u => u.telegram_id)).Nodup := by
  unfold replaceUser
  rw [List.map_append]
  refine List.Nodup.append ?_ (by simp) ?_
  · exact ((List.filter_sublist users).map (fun u => u.telegram_id)).nodup h
  · intro x hx hx'
    simp only [List.map_cons, List.map_nil, List.mem_singleton] at hx'
    subst hx'
    obtain ⟨u, hu, he⟩ := List.mem_map.mp hx
    have := (List.mem_filter.mp hu).2
    rw [he] at this
    simp at this

theorem add_student_users (fault : Bool) (now : Nat) (telegram_id : Int)
    (clave nombre apellidos : String) (grado grupo nivel : Option String)
    (de : Option (List (String × JVal))) (aa na : Option String)
    (da : Option (List (String × JVal))) (st : DBState) :
    (add_student fault now telegram_id clave nombre apellidos grado grupo nivel
        de aa na da st).1.users = st.users ∨
    (add_student fault now telegram_id clave nombre apellidos grado grupo nivel
        de aa na da st).1.users
      = replaceUser now telegram_id (aa.getD "") (na.getD "")
          (serialize_json (da.getD [])) st.users := by
  unfold add_student
  cases fault
  · cases hgb : (truthyStr aa && truthyStr na) <;>
      cases hdup : st.students.any (fun s =>
        s.telegram_id == telegram_id && s.apellidos_estudiante == apellidos &&
          s.nombre_estudiante == nombre) <;>
      simp [hgb, hdup]
  · simp

theorem update_student_users (now : Nat) (telegram_id : Int) (field : String)
    (value : PyValue) (student_id : Option Nat) (st : DBState) :
    (update_student now telegram_id field value student_id st).1.users = st.users := by
  unfold update_student
  repeat' split
  all_goals try rfl
  all_goals dsimp only
  all_goals repeat' split
  all_goals rfl

theorem delete_student_users (telegram_id : Int) (student_id : Option Nat) (st : DBState) :
    (delete_student telegram_id student_id st).1.users = st.users := rfl

end Database

/-- C7: deleting a specific student row by id removes exactly that row
(the student list becomes the original list with that one row erased),
returns `true`, leaves the `users` table unchanged, and decreases the
student count of the owning identity by exactly one. -/
theorem delete_student_frame (c : Int) (s : Nat) (st : Database.DBState)
    (r : Database.StudentRow) (hnd : Database.student_ids_nodup st)
    (hr : r ∈ st.students) (hc : r.telegram_id = c) (hs : r.id = s) (hs0 : s ≠ 0) :
    (Database.delete_student c (some s) st).2 = true ∧
    (Database.delete_student c (some s) st).1.users = st.users ∧
    (Database.delete_student c (some s) st).1.students = st.students.erase r ∧
    Database.get_student_count c (Database.delete_student c (some s) st).1 + 1
      = Database.get_student_count c st := by
  have hd := Database.delete_student_some_ne_zero c s st hs0
  have herase := Database.filter_not_key_erase c s st.students hnd r hr hc hs
  refine ⟨?_, by rw [hd], ?_, ?_⟩
  · rw [hd]
    show decide _ = true
    rw [decide_eq_true_eq, herase, List.length_erase_of_mem hr]
    have hpos : 0 < st.students.length := List.length_pos.mpr (List.ne_nil_of_mem hr)
    omega
  · rw [hd]
    exact herase
  · rw [hd]
    show ((st.students.filter (fun x => !(x.telegram_id == c && x.id == s))).filter
        (fun x => x.telegram_id == c)).length + 1
      = (st.students.filter (fun x => x.telegram_id == c)).length
    rw [List.filter_filter]
    rw [List.filter_congr (q := fun x => (x.telegram_id == c) && !(x.id == s))
      (by intro x _; cases hx1 : (x.telegram_id == c) <;> cases hx2 : (x.id == s) <;>
        simp [hx1, hx2])]
    have hsplit := Database.length_filter_and_split
      (fun x => x.telegram_id == c) (fun x => x.id == s) st.students
    rw [Database.filter_key_eq_singleton c s st.students hnd r hr hc hs] at hsplit
    simp only [List.length_singleton] at hsplit
    omega

theorem delete_student_frame_witness :
    (Database.student_ids_nodup
        ⟨[], [⟨1, 7, "K1", "Ana", "Diaz", none, none, none, "\x7b\x7d", 0, 0⟩,
              ⟨2, 7, "K1", "Leo", "Diaz", none, none, none, "\x7b\x7d", 1, 1⟩,
              ⟨3, 9, "K2", "Mia", "Ruiz", none, none, none, "\x7b\x7d", 2, 2⟩], 4⟩ ∧
      (⟨2, 7, "K1", "Leo", "Diaz", none, none, none, "\x7b\x7d", 1, 1⟩ :
          Database.StudentRow) ∈
        (⟨[], [⟨1, 7, "K1", "Ana", "Diaz", none, none, none, "\x7b\x7d", 0, 0⟩,
              ⟨2, 7, "K1", "Leo", "Diaz", none, none, none, "\x7b\x7d", 1, 1⟩,
              ⟨3, 9, "K2", "Mia", "Ruiz", none, none, none, "\x7b\x7d", 2, 2⟩], 4⟩ :
          Database.DBState).students ∧
      (2 : Nat) ≠ 0) ∧
    ((Database.delete_student 7 (some 2)
        ⟨[], [⟨1, 7, "K1", "Ana", "Diaz", none, none, none, "\x7b\x7d", 0, 0⟩,
              ⟨2, 7, "K1", "Leo", "Diaz", none, none, none, "\x7b\x7d", 1, 1⟩,
              ⟨3, 9, "K2", "Mia", "Ruiz", none, none, none, "\x7b\x7d", 2, 2⟩], 4⟩).2 = true ∧
     (Database.delete_student 7 (some 2)
        ⟨[], [⟨1, 7, "K1", "Ana", "Diaz", none, none, none, "\x7b\x7d", 0, 0⟩,
              ⟨2, 7, "K1", "Leo", "Diaz", none, none, none, "\x7b\x7d", 1, 1⟩,
              ⟨3, 9, "K2", "Mia", "Ruiz", none, none, none, "\x7b\x7d", 2, 2⟩], 4⟩).1.users
        = (⟨[], [⟨1, 7, "K1", "Ana", "Diaz", none, none, none, "\x7b\x7d", 0, 0⟩,
              ⟨2, 7, "K1", "Leo", "Diaz", none, none, none, "\x7b\x7d", 1, 1⟩,
              ⟨3, 9, "K2", "Mia", "Ruiz", none, none, none, "\x7b\x7d", 2, 2⟩], 4⟩ :
            Database.DBState).users ∧
     (Database.delete_student 7 (some 2)
        ⟨[], [⟨1, 7, "K1", "Ana", "Diaz", none, none, none, "\x7b\x7d", 0, 0⟩,
              ⟨2, 7, "K1", "Leo", "Diaz", none, none, none, "\x7b\x7d", 1, 1⟩,
              ⟨3, 9, "K2", "Mia", "Ruiz", none, none, none, "\x7b\x7d", 2, 2⟩], 4⟩).1.students
        = (⟨[], [⟨1, 7, "K1", "Ana", "Diaz", none, none, none, "\x7b\x7d", 0, 0⟩,
              ⟨2, 7, "K1", "Leo", "Diaz", none, none, none, "\x7b\x7d", 1, 1⟩,
              ⟨3, 9, "K2", "Mia", "Ruiz", none, none, none, "\x7b\x7d", 2, 2⟩], 4⟩ :
            Database.DBState).students.erase
            ⟨2, 7, "K1", "Leo", "Diaz", none, none, none, "\x7b\x7d", 1, 1⟩ ∧
     Database.get_student_count 7 (Database.delete_student 7 (some 2)
        ⟨[], [⟨1, 7, "K1", "Ana", "Diaz", none, none, none, "\x7b\x7d", 0, 0⟩,
              ⟨2, 7, "K1", "Leo", "Diaz", none, none, none, "\x7b\x7d", 1, 1⟩,
              ⟨3, 9, "K2", "Mia", "Ruiz", none, none, none, "\x7b\x7d", 2, 2⟩], 4⟩).1 + 1
        = Database.get_student_count 7
            ⟨[], [⟨1, 7, "K1", "Ana", "Diaz", none, none, none, "\x7b\x7d", 0, 0⟩,
              ⟨2, 7, "K1", "Leo", "Diaz", none, none, none, "\x7b\x7d", 1, 1⟩,
              ⟨3, 9, "K2", "Mia", "Ruiz", none, none, none, "\x7b\x7d", 2, 2⟩], 4⟩) :=
  ⟨⟨by unfold Database.student_ids_nodup; decide, by decide, by decide⟩,
    delete_student_frame 7 2 _ _ (by unfold Database.student_ids_nodup; decide)
      (by decide) rfl rfl (by decide)⟩

/-- C8: every persistence operation (`add_user`, `add_student`,
`update_student`, `update_user`, `delete_student`) preserves the
invariant that each chat identity has at most one Guardian (`users`)
row. -/
theorem persistence_preserves_guardian_uniqueness
    (st : Database.DBState) (fault : Bool) (now1 now2 now3 now4 : Nat)
    (t1 t2 t3 t4 t5 : Int)
    (ap1 nom1 : String) (d1 : Option (List (String × Database.JVal)))
    (clave nombre apellidos : String) (grado grupo nivel : Option String)
    (de : Option (List (String × Database.JVal))) (aa na : Option String)
    (da : Option (List (String × Database.JVal)))
    (f3 : String) (v3 : Database.PyValue) (sid3 : Option Nat)
    (f4 : String) (v4 : Database.PyValue) (sid5 : Option Nat)
    (h : Database.users_unique st) :
    Database.users_unique (Database.add_user now1 t1 ap1 nom1 d1 st).1 ∧
    Database.users_unique (Database.add_student fault now2 t2 clave nombre apellidos
        grado grupo nivel de aa na da st).1 ∧
    Database.users_unique (Database.update_student now3 t3 f3 v3 sid3 st).1 ∧
    Database.users_unique (Database.update_user now4 t4 f4 v4 st).1 ∧
    Database.users_unique (Database.delete_student t5 sid5 st).1 := by
  refine ⟨?_, ?_, ?_, ?_, ?_⟩
  · unfold Database.add_user
    by_cases hex : st.users.any (fun u => u.telegram_id == t1) = true
    · simpa [hex] using h
    · simp only [hex, Bool.false_eq_true, if_false]
      unfold Database.users_unique at h ⊢
      rw [List.map_append]
      refine List.Nodup.append h (by simp) ?_
      intro x hx hx'
      simp only [List.map_cons, List.map_nil, List.mem_singleton] at hx'
      subst hx'
      obtain ⟨u, hu, he⟩ := List.mem_map.mp hx
      exact hex (List.any_eq_true.mpr ⟨u, hu, by simp [he]⟩)
  · rcases Database.add_student_users fault now2 t2 clave nombre apellidos grado grupo
        nivel de aa na da st with hu | hu
    · unfold Database.users_unique at h ⊢
      rw [hu]
      exact h
    · unfold Database.users_unique at h ⊢
      rw [hu]
      exact Database.replaceUser_unique now2 t2 _ _ _ st.users h
  · unfold Database.users_unique at h ⊢
    rw [Database.update_student_users]
    exact h
  · unfold Database.update_user
    by_cases hf : f4 ∈ Database.allowed_fields_user
    · rw [if_pos hf]
      match hbv : Database.bindValue "datos_autorizado" f4 v4 with
      | none => exact h
      | some v =>
        unfold Database.users_unique at h ⊢
        rw [Database.map_users_telegram_id _ _ ?_]
        · exact h
        · intro u
          by_cases hc : (u.telegram_id == t4) = true <;>
            simp [hc, Database.setUserField_telegram_id]
    · rw [if_neg hf]
      exact h
  · unfold Database.users_unique at h ⊢
    rw [Database.delete_student_users]
    exact h

theorem persistence_preserves_guardian_uniqueness_witness :
    Database.users_unique
        ⟨[⟨5, "Lopez", "Ana", "\x7b\x7d", 0, 0⟩,
          ⟨6, "Ruiz", "Mar", "\x7b\x7d", 0, 0⟩], [], 1⟩ ∧
    (Database.users_unique (Database.add_user 1 5 "Diaz" "Lu" none
        ⟨[⟨5, "Lopez", "Ana", "\x7b\x7d", 0, 0⟩,
          ⟨6, "Ruiz", "Mar", "\x7b\x7d", 0, 0⟩], [], 1⟩).1 ∧
     Database.users_unique (Database.add_student false 2 5 "K1" "Juan" "Perez"
        none none none none (some "Lopez") (some "Ana") none
        ⟨[⟨5, "Lopez", "Ana", "\x7b\x7d", 0, 0⟩,
          ⟨6, "Ruiz", "Mar", "\x7b\x7d", 0, 0⟩], [], 1⟩).1 ∧
     Database.users_unique (Database.update_student 3 5 "grado"
        (Database.PyValue.str "2") none
        ⟨[⟨5, "Lopez", "Ana", "\x7b\x7d", 0, 0⟩,
          ⟨6, "Ruiz", "Mar", "\x7b\x7d", 0, 0⟩], [], 1⟩).1 ∧
     Database.users_unique (Database.update_user 4 5 "nombre_autorizado"
        (Database.PyValue.str "Eva")
        ⟨[⟨5, "Lopez", "Ana", "\x7b\x7d", 0, 0⟩,
          ⟨6, "Ruiz", "Mar", "\x7b\x7d", 0, 0⟩], [], 1⟩).1 ∧
     Database.users_unique (Database.delete_student 5 none
        ⟨[⟨5, "Lopez", "Ana", "\x7b\x7d", 0, 0⟩,
          ⟨6, "Ruiz", "Mar", "\x7b\x7d", 0, 0⟩], [], 1⟩).1) :=
  ⟨by unfold Database.users_unique; decide,
    persistence_preserves_guardian_uniqueness _ false 1 2 3 4 5 5 5 5 5
      "Diaz" "Lu" none "K1" "Juan" "Perez" none none none none (some "Lopez")
      (some "Ana") none "grado" (Database.PyValue.str "2") none
      "nombre_autorizado" (Database.PyValue.str "Eva") none
      (by unfold Database.users_unique; decide)⟩
